import Mathlib

/-
  Verification of the go-kit structured-logging core (pkg/logger).

  Shallow embedding of the source files:
    - logger.go  (Level gate, entry construction, context extraction)
    - async.go   (AsyncWriter: bounded queue, worker, drain, close)
    - config.go  (Config, Validate)
    - writer.go  (LogEntry data model; sinks are modelled as entry traces)
    - fields.go  (Field)

  Machine-level aspects are modelled explicitly:
    - a Go map insert is modelled as ordered override (mapSet);
    - context.Context value lookup is a function from keys to optional
      Go values; the type assertion to string yields "" on failure,
      exactly as the source initialises and conditionally overwrites;
    - the buffered channel of AsyncWriter is a FIFO list with a fixed
      capacity; a non-blocking send succeeds iff a buffer slot is free
      (the rendezvous with a parked receiver is one worker step earlier
      in the interleaving, which the run model already covers);
    - time.Now, runtime.Caller and runtime.Stack are inputs (RuntimeEnv).
-/

namespace GoKit

/-- A Go interface value as stored in a log field or a context. -/
inductive GoValue where
  | vstr : String → GoValue
  | vint : Int → GoValue
  | vbool : Bool → GoValue
  | vnull : GoValue
deriving DecidableEq, Repr

/-- Log severity. Source: `type Level int` with iota constants 0..3. -/
inductive Level where
  | debug
  | info
  | warn
  | error
deriving DecidableEq, Repr

/-- The integer value of a level constant (DebugLevel = 0 ... ErrorLevel = 3). -/
def Level.toInt : Level → Int
  | .debug => 0
  | .info => 1
  | .warn => 2
  | .error => 3

/-- Source `Level.Enabled`: a level is enabled iff it is >= the configured level. -/
def Level.Enabled (l level : Level) : Bool :=
  level.toInt ≥ l.toInt

/-- Output format selector (JSONFormat = 0, TextFormat = 1); opaque to the facade. -/
inductive Format where
  | json
  | text
deriving DecidableEq, Repr

/-- Source `Field`: a key-value pair for structured logging. -/
structure Field where
  Key : String
  Value : GoValue
deriving DecidableEq, Repr

/-- Go map insert with override semantics, on an ordered association list:
an existing key keeps its position and gets the new value, a new key is
appended. -/
def mapSet (m : List (String × GoValue)) (k : String) (v : GoValue) :
    List (String × GoValue) :=
  if (m.map Prod.fst).contains k then
    m.map (fun p => if p.1 = k then (k, v) else p)
  else
    m ++ [(k, v)]

/-- Fold a field list into a map, later keys overriding earlier ones. -/
def mapSetFields (m : List (String × GoValue)) (fs : List Field) :
    List (String × GoValue) :=
  fs.foldl (fun acc f => mapSet acc f.Key f.Value) m

/-- A Go error value: its message, and the message of the error returned by
Unwrap when the error implements the unwrapper interface (source
`unwrapError`). -/
structure GoError where
  message : String
  cause : Option String
deriving DecidableEq, Repr

/-- A context.Context, restricted to what the logger consumes: `Value` lookup. -/
def Context : Type := String → Option GoValue

/-- context.Background: carries no values. -/
def Context.background : Context := fun _ => none

/-- Lookup of a context value followed by the type assertion to string, with
the empty string when the key is absent or the value is not a string: this is
exactly how `extractTraceContext` and `extractRequestID` initialise a result
to the zero value and overwrite it only on a successful assertion. -/
def ctxString (ctx : Context) (k : String) : String :=
  match ctx k with
  | some (.vstr s) => s
  | _ => ""

/-- Source `extractTraceContext`: reads the trace_id and span_id keys. -/
def extractTraceContext (ctx : Context) : String × String :=
  (ctxString ctx "trace_id", ctxString ctx "span_id")

/-- Source `extractRequestID`: reads the request_id key. -/
def extractRequestID (ctx : Context) : String :=
  ctxString ctx "request_id"

/-- Source `LogEntry` (writer.go): one structured log record. Absent optional
attributes are the empty string, as in the Go zero value. -/
structure LogEntry where
  timestamp : Nat
  level : Level
  message : String
  fields : List (String × GoValue)
  caller : String
  stacktrace : String
  traceID : String
  spanID : String
  requestID : String
deriving DecidableEq, Repr

/-- Source `Config` (config.go). The output writer is modelled by its
presence flag (`Validate` only checks it against nil) together with an
external entry trace; see `traceAfter`. -/
structure Config where
  level : Level
  hasOutput : Bool
  format : Format
  addCaller : Bool
  addStacktrace : Bool
  fields : List Field
  timestampFormat : String
  enableTraceCorrelation : Bool
  asyncEnabled : Bool
  asyncBufferSize : Int

/-- Source `Config.Validate`: the output writer is required. -/
def Config.Validate (c : Config) : Option String :=
  if c.hasOutput then none else some "output writer is required"

/-- Runtime inputs of one log call: time.Now, the GetCaller 4 result and the
GetStacktrace result. -/
structure RuntimeEnv where
  now : Nat
  callerInfo : String
  stackInfo : String

/-- Source `logger` struct: config, persistent fields, persistent context.

The `msgPrefix` component is Modelled from the spec: the repository calls a
`Prefix` method on the logger (main.go, examples, logger_test.go) whose
implementation is absent from the provided sources; per the spec it returns a
new facade that prepends the given text plus one space to every message at
call time, which requires this one extra piece of state (empty on a logger
built by `New`). -/
structure LoggerImpl where
  config : Config
  fields : List Field
  context : Context
  msgPrefix : String

/-- Source `New`: validate the config, then build the logger with the config
fields and a background context. No asynchronous wrapper is constructed here:
the config is stored as given and delivery happens in `log`. -/
def New (cfg : Config) : Option LoggerImpl :=
  match cfg.Validate with
  | some _ => none
  | none =>
    some { config := cfg, fields := cfg.fields, context := Context.background,
           msgPrefix := "" }

/-- Source `logger.log`: build the field map (persistent fields first, call
fields second, error fields last), create the entry, enrich it (caller,
stacktrace on error level, trace correlation when enabled, request id
unconditionally) and hand it to the configured output. The returned value is
the entry passed to `config.Output.Write`. -/
def LoggerImpl.log (l : LoggerImpl) (env : RuntimeEnv) (ctx : Option Context)
    (level : Level) (msg : String) (err : Option GoError)
    (fields : List Field) : LogEntry :=
  let logCtx := match ctx with
    | some c => c
    | none => l.context
  let fieldMap := mapSetFields [] l.fields
  let fieldMap := mapSetFields fieldMap fields
  let fieldMap := match err with
    | none => fieldMap
    | some e =>
      let m := mapSet fieldMap "error" (.vstr e.message)
      match e.cause with
      | none => m
      | some c => mapSet m "error_cause" (.vstr c)
  let entry0 : LogEntry :=
    { timestamp := env.now, level := level, message := l.msgPrefix ++ msg,
      fields := fieldMap, caller := "", stacktrace := "", traceID := "",
      spanID := "", requestID := "" }
  let entry1 := if l.config.addCaller then
      { entry0 with caller := env.callerInfo } else entry0
  let entry2 := if level = Level.error ∧ l.config.addStacktrace then
      { entry1 with stacktrace := env.stackInfo } else entry1
  let entry3 := if l.config.enableTraceCorrelation then
      { entry2 with traceID := (extractTraceContext logCtx).1,
                    spanID := (extractTraceContext logCtx).2 }
    else entry2
  let rid := extractRequestID logCtx
  if rid ≠ "" then { entry3 with requestID := rid } else entry3

/-- Source `logger.Debug`: level gate, then log. The result is the entry
forwarded to the sink, or none when the call returns without side effects. -/
def LoggerImpl.Debug (l : LoggerImpl) (env : RuntimeEnv) (ctx : Option Context)
    (msg : String) (fields : List Field) : Option LogEntry :=
  if ¬ l.config.level.Enabled .debug then none
  else some (l.log env ctx .debug msg none fields)

/-- Source `logger.Info`. -/
def LoggerImpl.Info (l : LoggerImpl) (env : RuntimeEnv) (ctx : Option Context)
    (msg : String) (fields : List Field) : Option LogEntry :=
  if ¬ l.config.level.Enabled .info then none
  else some (l.log env ctx .info msg none fields)

/-- Source `logger.Warn`. -/
def LoggerImpl.Warn (l : LoggerImpl) (env : RuntimeEnv) (ctx : Option Context)
    (msg : String) (fields : List Field) : Option LogEntry :=
  if ¬ l.config.level.Enabled .warn then none
  else some (l.log env ctx .warn msg none fields)

/-- Source `logger.Error`: takes the error argument. -/
def LoggerImpl.Error (l : LoggerImpl) (env : RuntimeEnv) (ctx : Option Context)
    (msg : String) (err : Option GoError) (fields : List Field) :
    Option LogEntry :=
  if ¬ l.config.level.Enabled .error then none
  else some (l.log env ctx .error msg err fields)

/-- Source `logger.WithFields`: child logger with appended persistent fields. -/
def LoggerImpl.WithFields (l : LoggerImpl) (fields : List Field) : LoggerImpl :=
  { l with fields := l.fields ++ fields }

/-- Source `logger.WithContext`: child logger with a persistent context. -/
def LoggerImpl.WithContext (l : LoggerImpl) (ctx : Context) : LoggerImpl :=
  { l with context := ctx }

/-- Modelled from the spec: the `Prefix` method of the logger facade is
called throughout the repository (main.go, examples, logger_test.go) but its
implementation is absent from the provided sources. Per the spec, prefix of a
text returns a new facade that prepends the text plus a single space to every
message at call time, and chained calls compose left-to-right. -/
def LoggerImpl.Prefix (l : LoggerImpl) (text : String) : LoggerImpl :=
  { l with msgPrefix := l.msgPrefix ++ text ++ " " }

/-- The sink observed as a trace: an accepted call that produced an entry
appends it, a gated call leaves the trace unchanged (the sink is never
invoked). -/
def traceAfter (tr : List LogEntry) (res : Option LogEntry) : List LogEntry :=
  tr ++ res.toList

/-- Source `AsyncWriter` (async.go). The queued entries are opaque pointers,
so the state is parametric in the entry type. The inner writer is observed as
the trace of entries it has received (`sinkTrace`), in order; the error value
it returns on a given entry is supplied separately where a call inspects it
(`AsyncWriter.Write`). Slots of the buffered channel are the `queue` list,
bounded by `capacity`. -/
structure AsyncWriter (α : Type) where
  queue : List α
  capacity : Nat
  closed : Bool
  dropped : Nat
  sinkTrace : List α
deriving DecidableEq, Repr

/-- The freshly constructed state for a non-negative channel capacity. -/
def mkAsyncWriter (α : Type) (cap : Nat) : AsyncWriter α :=
  { queue := [], capacity := cap, closed := false, dropped := 0,
    sinkTrace := [] }

/-- Source `NewAsyncWriter`: the buffer size is handed to `make(chan ...)`
unchecked; a negative size makes `make` panic at run time (modelled as
failure), any other size becomes the channel capacity as given. -/
def NewAsyncWriter (α : Type) (bufferSize : Int) : Option (AsyncWriter α) :=
  if bufferSize < 0 then none
  else some (mkAsyncWriter α bufferSize.toNat)

/-- Source `AsyncWriter.Write`: when closed, fall back to a synchronous write
through the inner writer and return its result (`innerErr e` is the error the
inner writer reports for the entry). Otherwise a non-blocking send: enqueue
when a buffer slot is free and return nil, else drop, count, and return nil. -/
def AsyncWriter.Write {α : Type} (innerErr : α → Option String)
    (aw : AsyncWriter α) (e : α) : AsyncWriter α × Option String :=
  if aw.closed then
    ({ aw with sinkTrace := aw.sinkTrace ++ [e] }, innerErr e)
  else if aw.queue.length < aw.capacity then
    ({ aw with queue := aw.queue ++ [e] }, none)
  else
    ({ aw with dropped := aw.dropped + 1 }, none)

/-- One iteration of the `worker` loop taking the queue branch: receive the
oldest entry and write it to the inner writer, discarding the error. -/
def AsyncWriter.workerStep {α : Type} (aw : AsyncWriter α) : AsyncWriter α :=
  match aw.queue with
  | [] => aw
  | e :: rest => { aw with queue := rest, sinkTrace := aw.sinkTrace ++ [e] }

/-- Source `AsyncWriter.drain`: write every remaining queued entry to the
inner writer, in queue order, discarding errors. -/
def AsyncWriter.drain {α : Type} (aw : AsyncWriter α) : AsyncWriter α :=
  { aw with queue := [], sinkTrace := aw.sinkTrace ++ aw.queue }

/-- Source `AsyncWriter.Close`: a second call returns nil at once; the first
call marks the writer closed, cancels the worker context, and the worker then
drains the queue and terminates, with Close waiting on the WaitGroup, so the
post-return state has the drain applied. -/
def AsyncWriter.Close {α : Type} (aw : AsyncWriter α) :
    AsyncWriter α × Option String :=
  if aw.closed then (aw, none)
  else (AsyncWriter.drain { aw with closed := true }, none)

/-- Source `AsyncWriter.DroppedCount`. -/
def AsyncWriter.DroppedCount {α : Type} (aw : AsyncWriter α) : Nat :=
  aw.dropped

/-- An event of a pre-close execution: a producer call to Write, or the
worker consuming one entry. An arbitrary interleaving of these is a run. -/
inductive AsyncOp (α : Type) where
  | write : α → AsyncOp α
  | workerStep : AsyncOp α
deriving DecidableEq, Repr

/-- Execute a run of events against an AsyncWriter state. -/
def runOps {α : Type} (innerErr : α → Option String) :
    AsyncWriter α → List (AsyncOp α) → AsyncWriter α
  | aw, [] => aw
  | aw, .write e :: rest =>
    runOps innerErr (AsyncWriter.Write innerErr aw e).1 rest
  | aw, .workerStep :: rest => runOps innerErr aw.workerStep rest

/-- The entries of a run that Write actually enqueues (the successful
non-blocking sends), in the order of their enqueue operations. -/
def acceptedList {α : Type} (innerErr : α → Option String) :
    AsyncWriter α → List (AsyncOp α) → List α
  | _, [] => []
  | aw, .write e :: rest =>
    (if ¬ aw.closed ∧ aw.queue.length < aw.capacity then [e] else [])
      ++ acceptedList innerErr (AsyncWriter.Write innerErr aw e).1 rest
  | aw, .workerStep :: rest => acceptedList innerErr aw.workerStep rest

/-- The number of producer Write calls in a run (each returns success, so
these are the accepted enqueue attempts). -/
def writeCount {α : Type} : List (AsyncOp α) → Nat
  | [] => 0
  | .write _ :: rest => writeCount rest + 1
  | .workerStep :: rest => writeCount rest

/-- Concrete runtime inputs used by the evaluation theorems. -/
def demoEnv : RuntimeEnv :=
  { now := 17, callerInfo := "main.go:42", stackInfo := "goroutine 1" }

/-- A concrete context carrying all three well-known correlation keys. -/
def demoCtx : Context := fun k =>
  if k = "trace_id" then some (.vstr "trace-123")
  else if k = "span_id" then some (.vstr "span-456")
  else if k = "request_id" then some (.vstr "req-789")
  else none

/-- A concrete synchronous config with minimum level Warn. -/
def cfgWarnSync : Config :=
  { level := .warn, hasOutput := true, format := .json, addCaller := false,
    addStacktrace := false, fields := [], timestampFormat := "RFC3339",
    enableTraceCorrelation := false, asyncEnabled := false,
    asyncBufferSize := 1000 }

/-- A concrete config with the async flag enabled. -/
def cfgAsyncDemo : Config :=
  { cfgWarnSync with
    level := .info
    asyncEnabled := true
    asyncBufferSize := 10 }

/-- A concrete config with trace correlation disabled and everything enabled
at level Debug. -/
def cfgNoTraceDemo : Config :=
  { cfgWarnSync with level := .debug }

/-- The logger New builds from `cfgWarnSync` (spelled out so theorems can
mention it directly). -/
def demoWarnLogger : LoggerImpl :=
  { config := cfgWarnSync, fields := [], context := Context.background,
    msgPrefix := "" }

lemma workerStep_closed {α : Type} (aw : AsyncWriter α) :
    aw.workerStep.closed = aw.closed := by
  rcases aw with ⟨q, cap, cl, dr, sink⟩
  cases q <;> simp [AsyncWriter.workerStep]

lemma workerStep_capacity {α : Type} (aw : AsyncWriter α) :
    aw.workerStep.capacity = aw.capacity := by
  rcases aw with ⟨q, cap, cl, dr, sink⟩
  cases q <;> simp [AsyncWriter.workerStep]

lemma workerStep_dropped {α : Type} (aw : AsyncWriter α) :
    aw.workerStep.dropped = aw.dropped := by
  rcases aw with ⟨q, cap, cl, dr, sink⟩
  cases q <;> simp [AsyncWriter.workerStep]

lemma workerStep_sink_queue {α : Type} (aw : AsyncWriter α) :
    aw.workerStep.sinkTrace ++ aw.workerStep.queue
      = aw.sinkTrace ++ aw.queue := by
  rcases aw with ⟨q, cap, cl, dr, sink⟩
  cases q <;> simp [AsyncWriter.workerStep]

/-- The run invariant: starting from an open state, a run keeps the state
open, preserves what has been delivered followed by what is still queued as
the original contents followed by the accepted entries in enqueue order, and
accounts every producer call as either accepted or dropped. -/
lemma runOps_open_spec {α : Type} (innerErr : α → Option String)
    (ops : List (AsyncOp α)) :
    ∀ aw : AsyncWriter α, aw.closed = false →
      (runOps innerErr aw ops).closed = false ∧
      (runOps innerErr aw ops).sinkTrace ++ (runOps innerErr aw ops).queue
        = aw.sinkTrace ++ aw.queue ++ acceptedList innerErr aw ops ∧
      (runOps innerErr aw ops).dropped
          + (acceptedList innerErr aw ops).length
        = aw.dropped + writeCount ops := by
  induction ops with
  | nil =>
    intro aw h
    simp [runOps, acceptedList, writeCount, h]
  | cons op rest ih =>
    intro aw h
    cases op with
    | workerStep =>
      obtain ⟨ih1, ih2, ih3⟩ :=
        ih aw.workerStep (by rw [workerStep_closed]; exact h)
      refine ⟨?_, ?_, ?_⟩
      · simpa [runOps, acceptedList] using ih1
      · calc (runOps innerErr aw (.workerStep :: rest)).sinkTrace
              ++ (runOps innerErr aw (.workerStep :: rest)).queue
            = (runOps innerErr aw.workerStep rest).sinkTrace
              ++ (runOps innerErr aw.workerStep rest).queue := by
              simp [runOps]
          _ = aw.workerStep.sinkTrace ++ aw.workerStep.queue
              ++ acceptedList innerErr aw.workerStep rest := ih2
          _ = aw.sinkTrace ++ aw.queue
              ++ acceptedList innerErr aw (.workerStep :: rest) := by
              rw [workerStep_sink_queue]
              simp [acceptedList]
      · simp only [runOps, acceptedList, writeCount]
        rw [ih3, workerStep_dropped]
    | write e =>
      by_cases hlen : aw.queue.length < aw.capacity
      · have hW : (AsyncWriter.Write innerErr aw e).1
            = { aw with queue := aw.queue ++ [e] } := by
          simp [AsyncWriter.Write, h, hlen]
        obtain ⟨ih1, ih2, ih3⟩ :=
          ih (AsyncWriter.Write innerErr aw e).1 (by rw [hW]; simpa using h)
        refine ⟨?_, ?_, ?_⟩
        · simpa [runOps] using ih1
        · simp only [runOps, acceptedList]
          rw [ih2, hW]
          simp [h, hlen, List.append_assoc]
        · simp only [runOps, acceptedList, writeCount]
          rw [hW] at ih3 ⊢
          simp [h, hlen] at ih3 ⊢
          omega
      · have hW : (AsyncWriter.Write innerErr aw e).1
            = { aw with dropped := aw.dropped + 1 } := by
          simp [AsyncWriter.Write, h, hlen]
        obtain ⟨ih1, ih2, ih3⟩ :=
          ih (AsyncWriter.Write innerErr aw e).1 (by rw [hW]; simpa using h)
        refine ⟨?_, ?_, ?_⟩
        · simpa [runOps] using ih1
        · simp only [runOps, acceptedList]
          rw [ih2, hW]
          simp [h, hlen]
        · simp only [runOps, acceptedList, writeCount]
          rw [hW] at ih3 ⊢
          simp [h, hlen] at ih3 ⊢
          omega


/-- Closing an open writer drains the queue into the sink. -/
lemma close_of_open {α : Type} (aw : AsyncWriter α) (h : aw.closed = false) :
    aw.Close = ({ aw with
                  closed := true
                  queue := []
                  sinkTrace := aw.sinkTrace ++ aw.queue }, none) := by
  simp [AsyncWriter.Close, AsyncWriter.drain, h]

/-- What the first Close observes after any run from a fresh writer: the sink
ends up with exactly the accepted entries in order, the counter accounts for
the rest, and Close returns nil. -/
lemma close_run_spec {α : Type} (innerErr : α → Option String) (cap : Nat)
    (ops : List (AsyncOp α)) :
    ((runOps innerErr (mkAsyncWriter α cap) ops).Close).1.sinkTrace
        = acceptedList innerErr (mkAsyncWriter α cap) ops ∧
    ((runOps innerErr (mkAsyncWriter α cap) ops).Close).1.dropped
        + (acceptedList innerErr (mkAsyncWriter α cap) ops).length
        = writeCount ops ∧
    ((runOps innerErr (mkAsyncWriter α cap) ops).Close).2 = none := by
  obtain ⟨h1, h2, h3⟩ :=
    runOps_open_spec innerErr ops (mkAsyncWriter α cap) rfl
  rw [close_of_open _ h1]
  refine ⟨?_, ?_, rfl⟩
  · simpa [mkAsyncWriter] using h2
  · simpa [mkAsyncWriter] using h3

/-- Claim C1 (drain on close): for any interleaving of producer writes and
worker steps from a fresh AsyncWriter, after the first Close returns every
entry that was successfully enqueued has been written to the inner sink
exactly once (the delivered trace has the same element counts as the list of
accepted enqueued entries), and the number delivered plus the number dropped
equals the number of accepted enqueue attempts. -/
theorem C1_drain_on_close {α : Type} [DecidableEq α]
    (innerErr : α → Option String) (cap : Nat) (ops : List (AsyncOp α)) :
    (∀ e : α,
      ((runOps innerErr (mkAsyncWriter α cap) ops).Close).1.sinkTrace.count e
        = (acceptedList innerErr (mkAsyncWriter α cap) ops).count e) ∧
    ((runOps innerErr (mkAsyncWriter α cap) ops).Close).1.sinkTrace.length
        + ((runOps innerErr (mkAsyncWriter α cap) ops).Close).1.dropped
      = writeCount ops := by
  obtain ⟨h1, h2, _⟩ := close_run_spec innerErr cap ops
  constructor
  · intro e
    rw [h1]
  · rw [h1]
    omega

/-- Claim C8 (FIFO single-producer ordering): during a run the inner sink has
received a prefix of the accepted entries in enqueue order (worker delivery),
and after Close it has received exactly the accepted entries in enqueue order
(worker delivery followed by the close-time drain). -/
theorem C8_fifo_order {α : Type} (innerErr : α → Option String) (cap : Nat)
    (ops : List (AsyncOp α)) :
    (∃ pending,
      (runOps innerErr (mkAsyncWriter α cap) ops).sinkTrace ++ pending
        = acceptedList innerErr (mkAsyncWriter α cap) ops) ∧
    ((runOps innerErr (mkAsyncWriter α cap) ops).Close).1.sinkTrace
      = acceptedList innerErr (mkAsyncWriter α cap) ops := by
  obtain ⟨h1, h2, h3⟩ :=
    runOps_open_spec innerErr ops (mkAsyncWriter α cap) rfl
  constructor
  · exact ⟨(runOps innerErr (mkAsyncWriter α cap) ops).queue,
      by simpa [mkAsyncWriter] using h2⟩
  · exact (close_run_spec innerErr cap ops).1

/-- Claim C3 (non-blocking write with drop-on-full): a Write on an open
wrapper enqueues and returns nil when a buffer slot is free; when the queue
is full it leaves the queue unchanged, increments the dropped counter by
exactly one and still returns nil; and it never grows the queue beyond the
capacity. In both branches the inner sink is untouched, so success is
returned without waiting for delivery. -/
theorem C3_write_nonblocking {α : Type} (innerErr : α → Option String)
    (aw : AsyncWriter α) (e : α) (hopen : aw.closed = false) :
    (aw.queue.length < aw.capacity →
      AsyncWriter.Write innerErr aw e
        = ({ aw with queue := aw.queue ++ [e] }, none)) ∧
    (aw.capacity ≤ aw.queue.length →
      AsyncWriter.Write innerErr aw e
        = ({ aw with dropped := aw.dropped + 1 }, none)) ∧
    (aw.queue.length ≤ aw.capacity →
      (AsyncWriter.Write innerErr aw e).1.queue.length ≤ aw.capacity) := by
  refine ⟨?_, ?_, ?_⟩
  · intro hlen
    simp [AsyncWriter.Write, hopen, hlen]
  · intro hfull
    simp [AsyncWriter.Write, hopen, Nat.not_lt.mpr hfull]
  · intro hle
    by_cases hlen : aw.queue.length < aw.capacity
    · simp [AsyncWriter.Write, hopen, hlen]
      omega
    · simp [AsyncWriter.Write, hopen, hlen]
      omega

/-- Claim C3 witness: on a fresh capacity-1 wrapper a write enqueues and
returns nil; on the same wrapper with a full queue a write drops, counts, and
returns nil, never exceeding the capacity. -/
theorem C3_witness :
    AsyncWriter.Write (fun _ => none) (mkAsyncWriter Nat 1) 5
      = ({ mkAsyncWriter Nat 1 with queue := [5] }, none) ∧
    AsyncWriter.Write (fun _ => none)
        { mkAsyncWriter Nat 1 with queue := [7] } 5
      = ({ mkAsyncWriter Nat 1 with
           queue := [7]
           dropped := 1 }, none) ∧
    (AsyncWriter.Write (fun _ => none)
        { mkAsyncWriter Nat 1 with queue := [7] } 5).1.queue.length ≤ 1 := by
  refine ⟨?_, ?_, ?_⟩
  · simpa using
      (C3_write_nonblocking (fun _ => none) (mkAsyncWriter Nat 1) 5 rfl).1
        (by decide)
  · simpa using
      (C3_write_nonblocking (fun _ => none)
        { mkAsyncWriter Nat 1 with queue := [7] } 5 rfl).2.1 (by decide)
  · simpa using
      (C3_write_nonblocking (fun _ => none)
        { mkAsyncWriter Nat 1 with queue := [7] } 5 rfl).2.2 (by decide)

/-- Claim C6 (write after close): once the wrapper is closed, Write performs
the inner write synchronously (the entry is appended to the inner sink trace
within the call), returns exactly the inner sink result, and enqueues
nothing. -/
theorem C6_write_after_close {α : Type} (innerErr : α → Option String)
    (aw : AsyncWriter α) (e : α) (hclosed : aw.closed = true) :
    AsyncWriter.Write innerErr aw e
      = ({ aw with sinkTrace := aw.sinkTrace ++ [e] }, innerErr e) := by
  simp [AsyncWriter.Write, hclosed]

/-- Claim C6 witness: a write on a concrete closed wrapper delivers the entry
synchronously and surfaces the inner sink error for it. -/
theorem C6_witness :
    AsyncWriter.Write (fun n => if n = 3 then some "disk full" else none)
        { mkAsyncWriter Nat 4 with closed := true } 3
      = ({ mkAsyncWriter Nat 4 with
           closed := true
           sinkTrace := [3] }, some "disk full") := by
  simpa using
    (C6_write_after_close (fun n => if n = 3 then some "disk full" else none)
      { mkAsyncWriter Nat 4 with closed := true } 3 rfl)

/-- Claim C7 (idempotent close): after any first Close, a further Close
returns nil immediately and changes nothing, in particular the inner sink
trace stays the same, so nothing is delivered a second time. -/
theorem C7_close_idempotent {α : Type} (aw : AsyncWriter α) :
    AsyncWriter.Close (AsyncWriter.Close aw).1
      = ((AsyncWriter.Close aw).1, none) := by
  by_cases hc : aw.closed
  · simp [AsyncWriter.Close, hc]
  · simp [AsyncWriter.Close, AsyncWriter.drain, hc]

/-- Claim C9 counterexample: the constructor performs no validation or
clamping. A negative buffer size makes the channel construction panic
(modelled as a failed construction), refuting that construction never
crashes; a zero buffer size is accepted and yields a wrapper whose queue
bound is 0, refuting that every returned wrapper has a positive bound. -/
theorem C9_counterexample :
    NewAsyncWriter Nat (-1) = none ∧
    (NewAsyncWriter Nat 0).map AsyncWriter.capacity = some 0 := by
  constructor <;> rfl

/-- Claim C9 as amended: the buffer size is handed to the channel unchecked,
so a negative size crashes construction and any non-negative size, zero
included, becomes the queue bound as given. -/
theorem C9_capacity_unchecked (α : Type) (n : Int) :
    (n < 0 → NewAsyncWriter α n = none) ∧
    (0 ≤ n → NewAsyncWriter α n = some (mkAsyncWriter α n.toNat)) := by
  constructor
  · intro h
    simp [NewAsyncWriter, h]
  · intro h
    simp [NewAsyncWriter, Int.not_lt.mpr h]

/-- Claim C9 witness: the amended statement evaluated at a negative and at a
positive buffer size. -/
theorem C9_witness :
    NewAsyncWriter Nat (-2) = none ∧
    NewAsyncWriter Nat 3 = some (mkAsyncWriter Nat 3) :=
  ⟨(C9_capacity_unchecked Nat (-2)).1 (by decide),
   (C9_capacity_unchecked Nat 3).2 (by decide)⟩

/-- The message of the built entry is the facade text put before the call
message; none of the enrichment steps touches it. -/
lemma log_message (l : LoggerImpl) (env : RuntimeEnv) (ctx : Option Context)
    (level : Level) (msg : String) (err : Option GoError)
    (fields : List Field) :
    (l.log env ctx level msg err fields).message = l.msgPrefix ++ msg := by
  simp only [LoggerImpl.log]
  split <;>
    simp [apply_ite LogEntry.message]

/-- Claim C2 (level gate): a Debug, Info, Warn or Error call builds and
forwards an entry to the sink iff its level is at least the configured
minimum level, and a gated call leaves the sink trace untouched (the output
writer is never invoked and no entry exists). -/
theorem C2_level_gate (l : LoggerImpl) (env : RuntimeEnv)
    (ctx : Option Context) (msg : String) (err : Option GoError)
    (fields : List Field) (tr : List LogEntry) :
    ((l.Debug env ctx msg fields).isSome
        ↔ Level.debug.toInt ≥ l.config.level.toInt) ∧
    ((l.Info env ctx msg fields).isSome
        ↔ Level.info.toInt ≥ l.config.level.toInt) ∧
    ((l.Warn env ctx msg fields).isSome
        ↔ Level.warn.toInt ≥ l.config.level.toInt) ∧
    ((l.Error env ctx msg err fields).isSome
        ↔ Level.error.toInt ≥ l.config.level.toInt) ∧
    (Level.debug.toInt < l.config.level.toInt
        → traceAfter tr (l.Debug env ctx msg fields) = tr) ∧
    (Level.info.toInt < l.config.level.toInt
        → traceAfter tr (l.Info env ctx msg fields) = tr) ∧
    (Level.warn.toInt < l.config.level.toInt
        → traceAfter tr (l.Warn env ctx msg fields) = tr) ∧
    (Level.error.toInt < l.config.level.toInt
        → traceAfter tr (l.Error env ctx msg err fields) = tr) := by
  refine ⟨?_, ?_, ?_, ?_, ?_, ?_, ?_, ?_⟩
  · by_cases h : Level.debug.toInt ≥ l.config.level.toInt <;>
      simp [LoggerImpl.Debug, Level.Enabled, h]
  · by_cases h : Level.info.toInt ≥ l.config.level.toInt <;>
      simp [LoggerImpl.Info, Level.Enabled, h]
  · by_cases h : Level.warn.toInt ≥ l.config.level.toInt <;>
      simp [LoggerImpl.Warn, Level.Enabled, h]
  · by_cases h : Level.error.toInt ≥ l.config.level.toInt <;>
      simp [LoggerImpl.Error, Level.Enabled, h]
  · intro h
    simp [LoggerImpl.Debug, Level.Enabled, traceAfter, not_le.mpr h]
  · intro h
    simp [LoggerImpl.Info, Level.Enabled, traceAfter, not_le.mpr h]
  · intro h
    simp [LoggerImpl.Warn, Level.Enabled, traceAfter, not_le.mpr h]
  · intro h
    simp [LoggerImpl.Error, Level.Enabled, traceAfter, not_le.mpr h]

/-- Claim C2 witness: with minimum level Warn, an Info call is gated and the
sink trace stays empty, while a Warn call is forwarded. -/
theorem C2_witness :
    traceAfter [] (demoWarnLogger.Info demoEnv (some demoCtx) "m" []) = [] ∧
    (demoWarnLogger.Warn demoEnv (some demoCtx) "m" []).isSome = true := by
  constructor
  · exact (C2_level_gate demoWarnLogger demoEnv (some demoCtx) "m" none []
      []).2.2.2.2.2.1 (by decide)
  · exact ((C2_level_gate demoWarnLogger demoEnv (some demoCtx) "m" none []
      []).2.2.1).mpr (by decide)

/-- Claim C10 counterexample: with trace correlation disabled, a call whose
context carries the request_id key still reads it and attaches it to the
entry, so it is false that none of the three keys is read or attached when
the setting is off. -/
theorem C10_counterexample :
    cfgNoTraceDemo.enableTraceCorrelation = false ∧
    ((New cfgNoTraceDemo).map
        (fun l => (l.Info demoEnv (some demoCtx) "m" []).map
            LogEntry.requestID))
      = some (some "req-789") := by
  constructor
  · rfl
  · rfl

/-- Claim C10 as amended: the trace_id and span_id keys are read from the
call context and attached only when trace correlation is enabled; the
request_id key is read and attached whenever present, on every accepted
call, regardless of that setting. -/
theorem C10_correlation_gating (l : LoggerImpl) (env : RuntimeEnv)
    (ctx : Context) (level : Level) (msg : String) (err : Option GoError)
    (fields : List Field) :
    ((l.log env (some ctx) level msg err fields).traceID
        = if l.config.enableTraceCorrelation then ctxString ctx "trace_id"
          else "") ∧
    ((l.log env (some ctx) level msg err fields).spanID
        = if l.config.enableTraceCorrelation then ctxString ctx "span_id"
          else "") ∧
    (l.log env (some ctx) level msg err fields).requestID
        = ctxString ctx "request_id" := by
  simp only [LoggerImpl.log, extractTraceContext, extractRequestID]
  by_cases h1 : l.config.addCaller <;>
  by_cases h2 : level = Level.error ∧ l.config.addStacktrace <;>
  by_cases h3 : l.config.enableTraceCorrelation <;>
  by_cases h4 : ctxString ctx "request_id" = "" <;>
  simp [h1, h2, h3, h4]

/-- Claim C5 (message text composition, Modelled from the spec for the
absent Prefix method): chaining two Prefix calls equals one Prefix of the
joined texts, and an accepted Info call through the chained facade delivers
the message text x, a space, y, a space, then the call message (for a facade
with no earlier prefix text, exactly "x y msg"). -/
theorem C5_prefix_compose (l : LoggerImpl) (x y : String) (env : RuntimeEnv)
    (ctx : Option Context) (msg : String) (fields : List Field) :
    ((l.Prefix x).Prefix y = l.Prefix (x ++ " " ++ y)) ∧
    ((((l.Prefix x).Prefix y).Info env ctx msg fields).map LogEntry.message
      = if l.config.level.Enabled .info
        then some (l.msgPrefix ++ x ++ " " ++ y ++ " " ++ msg) else none) := by
  constructor
  · simp [LoggerImpl.Prefix, String.append_assoc]
  · by_cases h : l.config.level.Enabled .info <;>
      simp [LoggerImpl.Info, LoggerImpl.Prefix, h, log_message,
        String.append_assoc]

/-- Claim C4 (code-bug evidence): New with the async enable flag set builds
a logger whose accepted Info call hands the entry to the configured output
within the call itself, synchronously; the flag is never consulted and New
constructs no AsyncWriter, so nothing is enqueued or handled by a worker. -/
theorem C4_async_flag_ignored :
    cfgAsyncDemo.asyncEnabled = true ∧
    ((New cfgAsyncDemo).map
        (fun l => (traceAfter [] (l.Info demoEnv (some demoCtx) "hello" [])).map
            LogEntry.message))
      = some ["hello"] := by
  constructor
  · rfl
  · rfl

end GoKit
